import Mathlib

/-!
Shallow embedding of the quiz bot in `src/main.py`: the question-document
normalizer, the non-repeating question sampler, and the per-user session
state machine.  Raw Mongo documents are modelled as records restricted to
the fields the code consults; string-valued fields use `Option String`
with Python truthiness (`None` and `""` are falsy).  The Mongo stores are
threaded explicitly through the sampler, and the chat transport is reduced
to the list of replies each handler emits.
-/

namespace QuizBot

/-- Python truthiness filter for a string-valued field: `None` and `""` are falsy. -/
def truthyStr : Option String → Option String
  | some s => if s.isEmpty then none else some s
  | none => none

/-- Value of a Python `x or y or ...` chain over optional strings:
the first truthy entry, if any. -/
def firstTruthy : List (Option String) → Option String
  | [] => none
  | x :: xs =>
    match truthyStr x with
    | some v => some v
    | none => firstTruthy xs

/-- Python `o or d` for an optional string `o` with string default `d`. -/
def pyOr (o : Option String) (d : String) : String := (truthyStr o).getD d

/-- Python `str.lower()`. -/
def pyLower (s : String) : String := String.mk (s.toList.map Char.toLower)

/-- Python `str.strip()`. -/
def pyStrip (s : String) : String :=
  String.mk (((s.toList.dropWhile Char.isWhitespace).reverse.dropWhile Char.isWhitespace).reverse)

/-- Python `str.isdigit()` on ASCII content: nonempty and all digits. -/
def pyIsDigit (s : String) : Bool := !s.isEmpty && s.toList.all Char.isDigit

/-- Shape of the `options` field of a raw question document: either a mapping
keyed by the lowercase option letter or an ordered sequence. -/
inductive OptionsVal where
  | dict (entries : List (Char × String))
  | list (items : List String)
deriving DecidableEq

/-- Raw question document, restricted to the fields `main.py` consults.
`_id` models the stringified Mongo object id, always present. -/
structure Doc where
  question_id : Option String := none
  _id : String := ""
  question : Option String := none
  text : Option String := none
  option_a : Option String := none
  option_b : Option String := none
  option_c : Option String := none
  option_d : Option String := none
  a : Option String := none
  b : Option String := none
  c : Option String := none
  d : Option String := none
  A : Option String := none
  B : Option String := none
  C : Option String := none
  D : Option String := none
  opt_a : Option String := none
  opt_b : Option String := none
  opt_c : Option String := none
  opt_d : Option String := none
  options : Option OptionsVal := none
  answer : Option String := none
  correct : Option String := none
  answer_index : Option Int := none
  correct_index : Option Int := none
deriving DecidableEq

/-- Document with every optional field absent. -/
def emptyDoc : Doc := {}

/-- The dedup key computed in `fetch_nonrepeating_questions`:
`d.get("question_id") or str(d.get("_id"))`. -/
def sourceId (d : Doc) : String := pyOr d.question_id d._id

/-- `sanitize_question_doc`: converts `ObjectId` values to strings.  In this
model `_id` is already a string, so the conversion is the identity. -/
def sanitize_question_doc (q : Doc) : Doc := q

/-- Removal of a leading `\d+\.` ordinal (the regex `^\s*\d+\.\s*` of
`clean_question_text`); if the pattern does not match at the start, the
input is unchanged. -/
def strip_ordinal (l : List Char) : List Char :=
  let ws := l.dropWhile Char.isWhitespace
  let ds := ws.takeWhile Char.isDigit
  if ds.isEmpty then l
  else
    match ws.drop ds.length with
    | '.' :: r => r.dropWhile Char.isWhitespace
    | _ => l

/-- `clean_question_text`: strip a leading ordinal prefix, then `strip()`. -/
def clean_question_text (t : String) : String :=
  pyStrip (String.mk (strip_ordinal t.toList))

/-- Field `option_L` of a raw document, for lowercase letter `L`. -/
def field_option : Doc → Char → Option String
  | q, 'a' => q.option_a
  | q, 'b' => q.option_b
  | q, 'c' => q.option_c
  | q, 'd' => q.option_d
  | _, _ => none

/-- Bare lowercase field `L` of a raw document. -/
def field_bare : Doc → Char → Option String
  | q, 'a' => q.a
  | q, 'b' => q.b
  | q, 'c' => q.c
  | q, 'd' => q.d
  | _, _ => none

/-- Bare uppercase field `L.upper()` of a raw document, accessed by the
lowercase loop letter. -/
def field_bare_upper : Doc → Char → Option String
  | q, 'a' => q.A
  | q, 'b' => q.B
  | q, 'c' => q.C
  | q, 'd' => q.D
  | _, _ => none

/-- Field `opt_L` of a raw document, for lowercase letter `L`. -/
def field_opt : Doc → Char → Option String
  | q, 'a' => q.opt_a
  | q, 'b' => q.opt_b
  | q, 'c' => q.opt_c
  | q, 'd' => q.opt_d
  | _, _ => none

/-- Zero-based position of a lowercase option letter (`ord(letter) - 97`). -/
def letter_index (c : Char) : Nat := c.toNat - 97

/-- Value for letter `c` in an `options` mapping, when `options` is a dict. -/
def optionsDictVal (q : Doc) (c : Char) : Option String :=
  match q.options with
  | some (OptionsVal.dict e) => e.lookup c
  | _ => none

/-- Value at letter `c`'s position in an `options` sequence, when `options`
is a list. -/
def optionsListVal (q : Doc) (c : Char) : Option String :=
  match q.options with
  | some (OptionsVal.list l) => l.get? (letter_index c)
  | _ => none

/-- One iteration of the option-building loop in `format_question_card`:
the `or`-chain over `option_L` / bare `L` / bare `L.upper()` / `opt_L`,
then the `options` dict, then the `options` list, and `""` as fallback. -/
def resolve_option (q : Doc) (c : Char) : String :=
  match firstTruthy [field_option q c, field_bare q c, field_bare_upper q c, field_opt q c] with
  | some v => v
  | none =>
    match q.options with
    | some (OptionsVal.dict e) =>
      match truthyStr (e.lookup c) with
      | some v => v
      | none => ""
    | some (OptionsVal.list l) => (l.get? (letter_index c)).getD ""
    | none => ""

/-- `format_question_card`: cleaned question text followed by the four
labelled options, joined and stripped. -/
def format_question_card (q : Doc) : String :=
  let qtext := clean_question_text ((firstTruthy [q.question, q.text]).getD "")
  let parts := [qtext, "",
    "A: " ++ resolve_option q 'a', "B: " ++ resolve_option q 'b',
    "C: " ++ resolve_option q 'c', "D: " ++ resolve_option q 'd']
  pyStrip (String.intercalate "\n" parts)

/-- Mapping of a numeric `answer_index` / `correct_index` value:
`{1: 'a', 2: 'b', 3: 'c', 4: 'd'}.get(idx, 'a')`. -/
def idx_to_letter (i : Int) : String :=
  if i = 1 then "a" else if i = 2 then "b" else if i = 3 then "c"
  else if i = 4 then "d" else "a"

/-- Mapping of a purely numeric answer string:
`{'1': 'a', '2': 'b', '3': 'c', '4': 'd'}.get(s, 'a')`. -/
def digit_map (s : String) : String :=
  if s = "1" then "a" else if s = "2" then "b" else if s = "3" then "c"
  else if s = "4" then "d" else "a"

/-- The string scrutinised by `get_correct_answer`:
`(q.get('answer') or q.get('correct') or "").strip()`. -/
def rawAnswer (q : Doc) : String :=
  pyStrip ((firstTruthy [q.answer, q.correct]).getD "")

/-- `get_correct_answer`: resolve the correct answer to a lowercase letter
string (`"a"`/`"b"`/`"c"`/`"d"`). -/
def get_correct_answer (q : Doc) : String :=
  let raw := rawAnswer q
  if raw.isEmpty then
    match q.answer_index with
    | some i => idx_to_letter i
    | none =>
      match q.correct_index with
      | some i => idx_to_letter i
      | none => "a"
  else
    let raw_lower := pyLower raw
    if raw_lower = "a" ∨ raw_lower = "b" ∨ raw_lower = "c" ∨ raw_lower = "d" then raw_lower
    else if pyIsDigit raw_lower then digit_map raw_lower
    else
      match raw_lower.toList.find? (fun ch => ch = 'a' || ch = 'b' || ch = 'c' || ch = 'd') with
      | some ch => String.mk [ch]
      | none => "a"

/-- Key of a Progress Record: the `(user_id, db, collection)` triple used in
`fetch_nonrepeating_questions` (`collection` is `"_RANDOM_"` in random mode). -/
structure ProgKey where
  user_id : Int
  db : String
  collection : String
deriving DecidableEq

/-- The scope key built in `fetch_nonrepeating_questions`:
`{"user_id": user_id, "db": dbname, "collection": colname or "_RANDOM_"}`. -/
def prog_key_of (user_id : Int) (dbname : String) (colname : Option String) : ProgKey :=
  ⟨user_id, dbname, pyOr colname "_RANDOM_"⟩

/-- The Mongo deployment as consumed by the bot: database names, collection
names per database, documents per collection, and the persisted progress
records (`user_progress` in `_quiz_meta_`). -/
structure Store where
  database_names : List String
  collections : String → List String
  dbs : String → String → List Doc
  progress : ProgKey → Option (List String)

/-- Databases excluded by `list_user_dbs`. -/
def SYSTEM_DBS : List String := ["admin", "local", "config", "_quiz_meta_"]

/-- `list_user_dbs`: all database names except the system ones. -/
def list_user_dbs (store : Store) : List String :=
  store.database_names.filter (fun dbname => !(SYSTEM_DBS.contains dbname))

/-- `list_collections`: collection names of one database. -/
def list_collections (store : Store) (dbname : String) : List String :=
  store.collections dbname

/-- Served-id list loaded for a scope key:
`(user_progress_col.find_one(prog_key) or {}).get("served_qids", [])`. -/
def served_of (store : Store) (k : ProgKey) : List String :=
  (store.progress k).getD []

/-- Candidate pool built in `fetch_nonrepeating_questions`: the documents of
the named collection — or of every collection of the database when the
topic is absent (Python-truthiness on `colname`) — whose `sourceId` is not
in the served set. -/
def build_pool (store : Store) (dbname : String) (colname : Option String)
    (served : List String) : List Doc :=
  match truthyStr colname with
  | some cname => (store.dbs dbname cname).filter (fun d => decide (sourceId d ∉ served))
  | none =>
    (list_collections store dbname).flatMap
      (fun cname => (store.dbs dbname cname).filter (fun d => decide (sourceId d ∉ served)))

/-- The selection walk of `fetch_nonrepeating_questions`: scan the shuffled
pool, skip documents whose id is already served, otherwise record the id and
append the sanitized document, stopping once `n` results are collected.
Returns the final served list and the accumulated results. -/
def serveLoop (n : Nat) : List String → List Doc → List Doc → List String × List Doc
  | served, results, [] => (served, results)
  | served, results, q :: rest =>
    if sourceId q ∈ served then serveLoop n served results rest
    else if n ≤ results.length + 1 then
      (sourceId q :: served, results ++ [sanitize_question_doc q])
    else
      serveLoop n (sourceId q :: served) (results ++ [sanitize_question_doc q]) rest

/-- `fetch_nonrepeating_questions`.  The in-place `random.shuffle` is a
`shuffle` parameter; `storeOk = false` models a store exception, collapsed
by the surrounding `try`/`except` to an empty result.  The returned `Store`
carries the upserted progress record. -/
def fetch_nonrepeating_questions (store : Store) (shuffle : List Doc → List Doc)
    (storeOk : Bool) (dbname : String) (colname : Option String)
    (user_id : Int) (n : Nat) : List Doc × Store :=
  if storeOk then
    let k := prog_key_of user_id dbname colname
    let served := served_of store k
    let pool := build_pool store dbname colname served
    if pool = [] then ([], store)
    else
      let sr := serveLoop n served [] (shuffle pool)
      ((sr.2).take n,
       { store with progress := fun k2 => if k2 = k then some sr.1 else store.progress k2 })
  else ([], store)

/-- The aiogram FSM states of `QuizStates`; the session being in no state
(`none` below) models the spec's Idle. -/
inductive QuizState where
  | waiting_for_ready
  | selecting_subject
  | selecting_topic
  | answering_quiz
  | post_quiz
  | reporting_issue
deriving DecidableEq

/-- One user's session: the FSM state plus the FSM data keys the handlers
read (`subject`, `topic`, `questions`, `current_question`, `score`). -/
structure Session where
  state : Option QuizState := none
  subject : Option String := none
  topic : Option String := none
  questions : List Doc := []
  current_question : Nat := 0
  score : Nat := 0
deriving DecidableEq

/-- Result of `state.clear()`: no FSM state and empty data. -/
def clearedSession : Session := {}

/-- A Result Record as inserted into `user_results_col`. -/
structure ResultRecord where
  user_id : Int
  db : Option String
  col : String
  score : Nat
  total : Nat
  date : Nat
deriving DecidableEq

/-- Messages a handler sends back to the user, reduced to the cases the
claims talk about. -/
inductive Reply where
  | quizFinished (score total : Nat)
  | questionCard (idx : Nat) (txt : String)
  | errorLoading
  | noActiveQuestion
  | answerFeedback (correct : Bool)
deriving DecidableEq

/-- Result of running one handler: the updated session, the Result Records
successfully inserted, and the replies sent. -/
structure SendOutcome where
  session : Session
  inserted : List ResultRecord
  replies : List Reply
deriving DecidableEq

/-- `send_next_question`.  When the question list is exhausted it inserts a
Result Record, replies with the score summary plus the post-quiz keyboard
and enters `post_quiz`; `insertOk = false` models `insert_one` raising, in
which case the surrounding `try`/`except` logs, replies with an error
message, and leaves the session untouched (the commented-out
`state.clear()` is not executed).  Otherwise it sends the next question
card and sets `answering_quiz`. -/
def send_next_question (now : Nat) (insertOk : Bool) (chat_id : Int) (s : Session) :
    SendOutcome :=
  if s.questions.length ≤ s.current_question then
    if insertOk then
      { session := { s with state := some QuizState.post_quiz },
        inserted := [⟨chat_id, s.subject, pyOr s.topic "_RANDOM_",
                      s.score, s.questions.length, now⟩],
        replies := [Reply.quizFinished s.score s.questions.length] }
    else
      { session := s, inserted := [], replies := [Reply.errorLoading] }
  else
    { session := { s with state := some QuizState.answering_quiz },
      inserted := [],
      replies := [Reply.questionCard s.current_question
        (format_question_card (s.questions.getD s.current_question emptyDoc))] }

/-- `answer_callback`: reject a stale press (index beyond the questions) by
clearing the session, otherwise score the selected letter against
`get_correct_answer`, advance the index, and hand over to
`send_next_question`. -/
def answer_callback (now : Nat) (insertOk : Bool) (chat_id : Int) (s : Session)
    (user_answer : String) : SendOutcome :=
  let user_answer_lower := pyLower user_answer
  if s.questions.length ≤ s.current_question then
    { session := clearedSession, inserted := [], replies := [Reply.noActiveQuestion] }
  else
    let q := s.questions.getD s.current_question emptyDoc
    let correct_answer := get_correct_answer q
    let matched := user_answer_lower == correct_answer
    let score := if matched then s.score + 1 else s.score
    let s2 := { s with current_question := s.current_question + 1, score := score }
    let out := send_next_question now insertOk chat_id s2
    { out with replies := Reply.answerFeedback matched :: out.replies }

/-- `ready_callback`: list the subjects; abort to a cleared session when
there are none, otherwise enter `selecting_subject`. -/
def ready_callback (store : Store) (s : Session) : Session :=
  if list_user_dbs store = [] then clearedSession
  else { s with state := some QuizState.selecting_subject }

/-- `start_again_callback`: reuse the existing ready flow. -/
def start_again_callback (store : Store) (s : Session) : Session :=
  ready_callback store s

/-- External events the dispatcher routes by FSM state. -/
inductive Event where
  | answer (letter : String)
  | start_again
deriving DecidableEq

/-- The aiogram router: an answer press is handled only in
`answering_quiz`, a start-again press only in `post_quiz`; otherwise the
event is dropped. -/
def dispatch (store : Store) (now : Nat) (insertOk : Bool) (chat_id : Int)
    (s : Session) : Event → SendOutcome
  | Event.answer a =>
    if s.state = some QuizState.answering_quiz then answer_callback now insertOk chat_id s a
    else { session := s, inserted := [], replies := [] }
  | Event.start_again =>
    if s.state = some QuizState.post_quiz then
      { session := start_again_callback store s, inserted := [], replies := [] }
    else { session := s, inserted := [], replies := [] }

/-- Sequential processing of answer events (letter, insert-success flag),
one at a time in arrival order. -/
def run_events (store : Store) (now : Nat) (chat_id : Int) (s : Session) :
    List (String × Bool) → Session
  | [] => s
  | e :: rest =>
    run_events store now chat_id
      (dispatch store now e.2 chat_id s (Event.answer e.1)).session rest

/-- Telegram chat-member status as consulted by `is_channel_member`. -/
inductive ChatMemberStatus where
  | member
  | administrator
  | creator
  | left
  | kicked
  | restricted
deriving DecidableEq

/-- `is_channel_member`: admit everyone when no channel is configured;
query membership otherwise, treating any transport error (`Except.error`)
as non-membership via the surrounding `try`/`except`. -/
def is_channel_member (channel_to_join : Option Int)
    (get_chat_member : Int → Int → Except Unit ChatMemberStatus)
    (user_id : Int) : Bool :=
  match channel_to_join with
  | none => true
  | some chat_id =>
    match get_chat_member chat_id user_id with
    | Except.error _ => false
    | Except.ok st =>
      st = ChatMemberStatus.member || st = ChatMemberStatus.administrator ||
        st = ChatMemberStatus.creator

/-! Spec-side definitions and concrete scenario records used by the claim
theorems. -/

/-- Spec-worded candidate list for one option letter, §4.1 of the spec:
`option_L`, bare `L`, bare `L` uppercase, `opt_L`, `options` mapping at `L`,
`options` sequence at `L`'s position; absent values read as `""`. -/
def specOptionCandidates (q : Doc) (c : Char) : List String :=
  [(field_option q c).getD "", (field_bare q c).getD "", (field_bare_upper q c).getD "",
   (field_opt q c).getD "", (optionsDictVal q c).getD "", (optionsListVal q c).getD ""]

/-- Spec-worded "first non-empty wins, else empty string". -/
def firstNonEmpty (l : List String) : String :=
  (l.find? (fun s => !s.isEmpty)).getD ""

/-- Scenario record `{"question": "1. What is 2+2?", "option_a": "3",
"option_b": "4", "answer": "b"}`. -/
def mathExample : Doc :=
  { question := some "1. What is 2+2?", option_a := some "3", option_b := some "4",
    answer := some "b" }

/-- Scenario record `{"text": "Capital of France?",
"options": ["Paris", "Rome", "Berlin", "Madrid"], "correct": "1"}`. -/
def franceExample : Doc :=
  { text := some "Capital of France?",
    options := some (OptionsVal.list ["Paris", "Rome", "Berlin", "Madrid"]),
    correct := some "1" }

lemma firstNonEmpty_nil : firstNonEmpty [] = "" := rfl

lemma empty_isEmpty : ("" : String).isEmpty = true := rfl


lemma firstNonEmpty_cons (a : String) (l : List String) :
    firstNonEmpty (a :: l) = if a.isEmpty then firstNonEmpty l else a := by
  by_cases h : a.isEmpty <;> simp [firstNonEmpty, List.find?, h]
lemma firstNonEmpty_pair_left_empty (y : String) : firstNonEmpty ["", y] = y := by
  rw [firstNonEmpty_cons, if_pos empty_isEmpty, firstNonEmpty_cons]
  by_cases hy : y.isEmpty
  · rw [if_pos hy, firstNonEmpty_nil, (String.isEmpty_iff y).mp hy]
  · rw [if_neg hy]

lemma firstTruthy_append (xs : List (Option String)) (rest : List String) :
    firstNonEmpty (xs.map (fun o => o.getD "") ++ rest) =
      match firstTruthy xs with
      | some v => v
      | none => firstNonEmpty rest := by
  induction xs with
  | nil => simp [firstTruthy]
  | cons x xs ih =>
    cases x with
    | none => simpa [firstTruthy, truthyStr, firstNonEmpty_cons] using ih
    | some s =>
      by_cases hs : s.isEmpty
      · simpa [firstTruthy, truthyStr, hs, firstNonEmpty_cons] using ih
      · simp [firstTruthy, truthyStr, hs, firstNonEmpty_cons]

/-- C8: for every raw question record and every option letter, the option
text produced by the card-building loop is the first non-empty value among
`option_L`, bare `L`, bare `L` uppercase, `opt_L`, the `options` mapping at
`L`, and the `options` sequence at `L`'s position, defaulting to the empty
string when none matches; the resolution is a total function (it can never
fail), and the §8 scenario record normalizes as specified. -/
theorem option_resolution_priority :
    (∀ (q : Doc) (c : Char), resolve_option q c = firstNonEmpty (specOptionCandidates q c)) ∧
    resolve_option mathExample 'a' = "3" ∧ resolve_option mathExample 'b' = "4" ∧
    resolve_option mathExample 'c' = "" ∧ resolve_option mathExample 'd' = "" ∧
    clean_question_text "1. What is 2+2?" = "What is 2+2?" ∧
    get_correct_answer mathExample = "b" := by
  refine ⟨?_, by decide, by decide, by decide, by decide, by decide, by decide⟩
  intro q c
  have heq : specOptionCandidates q c =
      ([field_option q c, field_bare q c, field_bare_upper q c, field_opt q c].map
        (fun o => o.getD "")) ++
      [(optionsDictVal q c).getD "", (optionsListVal q c).getD ""] := rfl
  rw [heq, firstTruthy_append]
  unfold resolve_option
  cases hft : firstTruthy [field_option q c, field_bare q c, field_bare_upper q c,
      field_opt q c] with
  | some v => rfl
  | none =>
    cases hopt : q.options with
    | none =>
      simp only [optionsDictVal, optionsListVal, hopt, Option.getD_none]
      rw [firstNonEmpty_pair_left_empty]
    | some ov =>
      cases ov with
      | dict e =>
        cases hl : e.lookup c with
        | none =>
          simp only [optionsDictVal, optionsListVal, hopt, hl, Option.getD_none]
          rw [firstNonEmpty_pair_left_empty]
          rfl
        | some s =>
          simp only [optionsDictVal, optionsListVal, hopt, hl, Option.getD_some,
            Option.getD_none]
          by_cases hs : s.isEmpty
          · have hse : s = "" := (String.isEmpty_iff s).mp hs
            subst hse
            rw [firstNonEmpty_pair_left_empty]
            rfl
          · rw [firstNonEmpty_cons, if_neg hs]
            simp [truthyStr, hs]
      | list l =>
        simp only [optionsDictVal, optionsListVal, hopt, Option.getD_none]
        rw [firstNonEmpty_pair_left_empty]

lemma idx_to_letter_mem (i : Int) : idx_to_letter i ∈ (["a", "b", "c", "d"] : List String) := by
  unfold idx_to_letter
  split_ifs <;> simp

lemma digit_map_mem (s : String) : digit_map s ∈ (["a", "b", "c", "d"] : List String) := by
  unfold digit_map
  split_ifs <;> simp

lemma rawAnswer_not_empty {q : Doc} (h : rawAnswer q ≠ "") :
    (rawAnswer q).isEmpty = false := by
  rw [← Bool.not_eq_true]
  exact fun hh => h ((String.isEmpty_iff _).mp hh)

lemma digit_not_letter {s : String} (h : pyIsDigit s = true) :
    ¬(s = "a" ∨ s = "b" ∨ s = "c" ∨ s = "d") := by
  rintro (rfl | rfl | rfl | rfl) <;> exact absurd h (by decide)

lemma gca_empty (q : Doc) (h : rawAnswer q = "") :
    get_correct_answer q =
      (match q.answer_index with
       | some i => idx_to_letter i
       | none =>
         match q.correct_index with
         | some i => idx_to_letter i
         | none => "a") := by
  simp only [get_correct_answer, h, empty_isEmpty, if_true]

lemma gca_letter (q : Doc) (h : rawAnswer q ≠ "")
    (hl : pyLower (rawAnswer q) = "a" ∨ pyLower (rawAnswer q) = "b" ∨
      pyLower (rawAnswer q) = "c" ∨ pyLower (rawAnswer q) = "d") :
    get_correct_answer q = pyLower (rawAnswer q) := by
  simp only [get_correct_answer, rawAnswer_not_empty h, Bool.false_eq_true, if_false]
  rw [if_pos hl]

lemma gca_digit (q : Doc) (h : rawAnswer q ≠ "")
    (hd : pyIsDigit (pyLower (rawAnswer q)) = true) :
    get_correct_answer q = digit_map (pyLower (rawAnswer q)) := by
  simp only [get_correct_answer, rawAnswer_not_empty h, Bool.false_eq_true, if_false]
  rw [if_neg (digit_not_letter hd), if_pos hd]

lemma gca_scan (q : Doc) (h : rawAnswer q ≠ "")
    (hl : ¬(pyLower (rawAnswer q) = "a" ∨ pyLower (rawAnswer q) = "b" ∨
      pyLower (rawAnswer q) = "c" ∨ pyLower (rawAnswer q) = "d"))
    (hd : pyIsDigit (pyLower (rawAnswer q)) = false) :
    get_correct_answer q =
      (((pyLower (rawAnswer q)).toList.find?
          (fun ch => ch = 'a' || ch = 'b' || ch = 'c' || ch = 'd')).map
        (fun ch => String.mk [ch])).getD "a" := by
  simp only [get_correct_answer, rawAnswer_not_empty h, Bool.false_eq_true, if_false]
  rw [if_neg hl, hd]
  simp only [Bool.false_eq_true, if_false]
  cases hfind : (pyLower (rawAnswer q)).toList.find?
      (fun ch => ch = 'a' || ch = 'b' || ch = 'c' || ch = 'd') <;> simp [hfind]

/-- C7: correct-answer resolution is total and always lands in a/b/c/d
(rendered uppercase in the UI): an exact letter string (after `strip()` and
case folding) is used directly, a purely numeric string goes through the
1-4 mapping with default `a`, any other string yields its first occurrence
of a/b/c/d with default `a`, a blank answer falls back to
`answer_index`/`correct_index` with the same mapping and default `a`, and
the §8 France scenario with `correct = "1"` resolves to `a`. -/
theorem get_correct_answer_resolution :
    (∀ q : Doc, get_correct_answer q ∈ (["a", "b", "c", "d"] : List String)) ∧
    (∀ q : Doc, rawAnswer q ≠ "" →
      pyLower (rawAnswer q) = "a" ∨ pyLower (rawAnswer q) = "b" ∨
        pyLower (rawAnswer q) = "c" ∨ pyLower (rawAnswer q) = "d" →
      get_correct_answer q = pyLower (rawAnswer q)) ∧
    (∀ q : Doc, rawAnswer q ≠ "" → pyIsDigit (pyLower (rawAnswer q)) = true →
      get_correct_answer q = digit_map (pyLower (rawAnswer q))) ∧
    (∀ q : Doc, rawAnswer q ≠ "" →
      ¬(pyLower (rawAnswer q) = "a" ∨ pyLower (rawAnswer q) = "b" ∨
        pyLower (rawAnswer q) = "c" ∨ pyLower (rawAnswer q) = "d") →
      pyIsDigit (pyLower (rawAnswer q)) = false →
      get_correct_answer q =
        (((pyLower (rawAnswer q)).toList.find?
            (fun ch => ch = 'a' || ch = 'b' || ch = 'c' || ch = 'd')).map
          (fun ch => String.mk [ch])).getD "a") ∧
    (∀ q : Doc, rawAnswer q = "" →
      get_correct_answer q =
        (match q.answer_index with
         | some i => idx_to_letter i
         | none =>
           match q.correct_index with
           | some i => idx_to_letter i
           | none => "a")) ∧
    get_correct_answer franceExample = "a" := by
  refine ⟨?_, gca_letter, gca_digit, gca_scan, gca_empty, by decide⟩
  intro q
  by_cases h : rawAnswer q = ""
  · rw [gca_empty q h]
    cases q.answer_index with
    | some i => exact idx_to_letter_mem i
    | none =>
      cases q.correct_index with
      | some i => exact idx_to_letter_mem i
      | none => simp
  · by_cases hl : pyLower (rawAnswer q) = "a" ∨ pyLower (rawAnswer q) = "b" ∨
        pyLower (rawAnswer q) = "c" ∨ pyLower (rawAnswer q) = "d"
    · rw [gca_letter q h hl]
      rcases hl with hl | hl | hl | hl <;> rw [hl] <;> simp
    · cases hd : pyIsDigit (pyLower (rawAnswer q)) with
      | true => rw [gca_digit q h hd]; exact digit_map_mem _
      | false =>
        rw [gca_scan q h hl hd]
        cases hfind : (pyLower (rawAnswer q)).toList.find?
            (fun ch => ch = 'a' || ch = 'b' || ch = 'c' || ch = 'd') with
        | none => simp
        | some ch =>
          have hp := List.find?_some hfind
          simp only [Bool.or_eq_true, decide_eq_true_eq] at hp
          rcases hp with ((rfl | rfl) | rfl) | rfl <;> simp

/-- Record with `answer = "B"`, used to witness C7. -/
def letterBExample : Doc := { answer := some "B" }

theorem get_correct_answer_resolution_witness :
    get_correct_answer letterBExample = pyLower (rawAnswer letterBExample) ∧
    get_correct_answer letterBExample = "b" := by
  have h := get_correct_answer_resolution
  refine ⟨h.2.1 letterBExample (by decide) (by decide), ?_⟩
  rw [h.2.1 letterBExample (by decide) (by decide)]
  decide

/-- C9: an answer event arriving in the Answering state when the index has
reached or passed the end of the question list is rejected with the "no
active question" reply and the session is cleared — reset to Idle (no FSM
state, empty data), with nothing scored and no Result Record written. -/
theorem stale_answer_resets_idle (store : Store) (now : Nat) (ok : Bool) (chat_id : Int)
    (s : Session) (a : String)
    (hstate : s.state = some QuizState.answering_quiz)
    (hstale : s.questions.length ≤ s.current_question) :
    dispatch store now ok chat_id s (Event.answer a) =
      { session := clearedSession, inserted := [], replies := [Reply.noActiveQuestion] } := by
  simp [dispatch, hstate, answer_callback, hstale]

/-- Session sitting one past its single question, used to witness C9 and to
refute C5's claimed behavior when the result insert fails. -/
def exhaustedSession : Session :=
  { state := some QuizState.answering_quiz, subject := some "math",
    questions := [emptyDoc], current_question := 1, score := 1 }

/-- Store with a single non-system database and nothing else, used by the
C1/C6 witnesses and counterexamples. -/
def oneSubjectStore : Store :=
  { database_names := ["math"], collections := fun _ => [], dbs := fun _ _ => [],
    progress := fun _ => none }

theorem stale_answer_resets_idle_witness :
    dispatch oneSubjectStore 0 true 0
        { exhaustedSession with current_question := 2 } (Event.answer "A") =
      { session := clearedSession, inserted := [], replies := [Reply.noActiveQuestion] } :=
  stale_answer_resets_idle oneSubjectStore 0 true 0
    { exhaustedSession with current_question := 2 } "A" rfl (by decide)

/-- C10: the membership check is total with a fixed policy — with no
configured channel every user is admitted; a transport error while querying
(the `Except.error` branch, i.e. the caught exception) yields `false`; a
successful query admits exactly the member/administrator/creator statuses.
Being a total Lean function, `is_channel_member` can propagate no
exception. -/
theorem membership_check_policy
    (get_chat_member : Int → Int → Except Unit ChatMemberStatus) (user_id : Int) :
    is_channel_member none get_chat_member user_id = true ∧
    (∀ ch : Int, get_chat_member ch user_id = Except.error () →
      is_channel_member (some ch) get_chat_member user_id = false) ∧
    (∀ (ch : Int) (st : ChatMemberStatus), get_chat_member ch user_id = Except.ok st →
      is_channel_member (some ch) get_chat_member user_id =
        (st = ChatMemberStatus.member || st = ChatMemberStatus.administrator ||
          st = ChatMemberStatus.creator)) := by
  refine ⟨rfl, ?_, ?_⟩
  · intro ch h
    simp [is_channel_member, h]
  · intro ch st h
    simp [is_channel_member, h]

theorem membership_check_policy_witness :
    is_channel_member none (fun _ _ => Except.error ()) 5 = true ∧
    is_channel_member (some 1) (fun _ _ => Except.error ()) 5 = false :=
  ⟨(membership_check_policy (fun _ _ => Except.error ()) 5).1,
   (membership_check_policy (fun _ _ => Except.error ()) 5).2.1 1 rfl⟩

/-- C5 counterexample: when the Result Record insert raises, the quiz does
NOT finish from the user's perspective — the state stays `answering_quiz`
instead of `post_quiz` and the post-quiz summary/menu reply is never sent,
refuting the claim that the flow still reaches PostQuiz. -/
theorem result_persist_failure_counterexample :
    (send_next_question 0 false 0 exhaustedSession).session.state ≠
        some QuizState.post_quiz ∧
    (send_next_question 0 false 0 exhaustedSession).replies = [Reply.errorLoading] := by
  decide

/-- C5 (amended): when persisting the Result Record fails on a completed
question sequence, the exception is caught (only logged) and an error
message is shown, but no record is inserted, no post-quiz menu is shown,
and the session is left exactly as it was — it does not transition to
PostQuiz. -/
theorem result_persist_failure_behavior (now : Nat) (chat_id : Int) (s : Session)
    (hdone : s.questions.length ≤ s.current_question) :
    send_next_question now false chat_id s =
      { session := s, inserted := [], replies := [Reply.errorLoading] } := by
  simp [send_next_question, hdone]

theorem result_persist_failure_behavior_witness :
    send_next_question 3 false 7 exhaustedSession =
      { session := exhaustedSession, inserted := [], replies := [Reply.errorLoading] } :=
  result_persist_failure_behavior 3 7 exhaustedSession (by decide)

/-- Session in the PostQuiz state, used for the C6 counterexample. -/
def postQuizSession : Session :=
  { state := some QuizState.post_quiz, subject := some "math",
    questions := [emptyDoc], current_question := 1, score := 1 }

/-- C6 counterexample: pressing "start again" in PostQuiz with a subject
available leaves the session in `selecting_subject`, not in
`waiting_for_ready` (the spec's AwaitingReady), refuting the claimed next
state. -/
theorem start_again_state_counterexample :
    (dispatch oneSubjectStore 0 true 0 postQuizSession Event.start_again).session.state ≠
        some QuizState.waiting_for_ready ∧
    (dispatch oneSubjectStore 0 true 0 postQuizSession Event.start_again).session.state =
        some QuizState.selecting_subject := by
  decide

/-- C6 (amended): "start again" in PostQuiz re-enters the ready flow by
invoking the ready handler directly, so the next state is SelectingSubject
when at least one subject exists and a cleared (Idle) session when none do
— never AwaitingReady. -/
theorem start_again_target_state (store : Store) (now : Nat) (ok : Bool) (chat_id : Int)
    (s : Session) (hpost : s.state = some QuizState.post_quiz) :
    (list_user_dbs store ≠ [] →
      (dispatch store now ok chat_id s Event.start_again).session =
        { s with state := some QuizState.selecting_subject }) ∧
    (list_user_dbs store = [] →
      (dispatch store now ok chat_id s Event.start_again).session = clearedSession) := by
  constructor <;> intro h <;>
    simp [dispatch, hpost, start_again_callback, ready_callback, h]

theorem start_again_target_state_witness :
    (dispatch oneSubjectStore 2 true 4 postQuizSession Event.start_again).session =
      { postQuizSession with state := some QuizState.selecting_subject } :=
  (start_again_target_state oneSubjectStore 2 true 4 postQuizSession rfl).1 (by decide)

/-- Session invariant of §3 of the spec: `score ≤ currentIndex ≤ len(questions)`
(the lower bound `0 ≤ currentIndex` is carried by the `Nat` type). -/
def Inv (s : Session) : Prop :=
  s.score ≤ s.current_question ∧ s.current_question ≤ s.questions.length

lemma send_next_question_data (now : Nat) (ok : Bool) (chat_id : Int) (s : Session) :
    (send_next_question now ok chat_id s).session.current_question = s.current_question ∧
    (send_next_question now ok chat_id s).session.questions = s.questions ∧
    (send_next_question now ok chat_id s).session.score = s.score := by
  unfold send_next_question
  split_ifs <;> simp

lemma answer_callback_step (now : Nat) (ok : Bool) (chat_id : Int) (s : Session)
    (a : String) (h : s.current_question < s.questions.length) :
    (answer_callback now ok chat_id s a).session.current_question =
      s.current_question + 1 ∧
    (answer_callback now ok chat_id s a).session.questions = s.questions ∧
    (answer_callback now ok chat_id s a).session.score =
      s.score + (if pyLower a ==
          get_correct_answer (s.questions.getD s.current_question emptyDoc)
        then 1 else 0) := by
  have hne : ¬ s.questions.length ≤ s.current_question := not_le.mpr h
  have hd := send_next_question_data now ok chat_id
    { s with current_question := s.current_question + 1,
             score := if pyLower a ==
                 get_correct_answer (s.questions.getD s.current_question emptyDoc)
               then s.score + 1 else s.score }
  simp only [answer_callback, hne, if_false]
  refine ⟨by rw [hd.1], by rw [hd.2.1], ?_⟩
  rw [hd.2.2]
  split <;> rename_i hsplit <;> simp [hsplit]

lemma dispatch_answer_inv (store : Store) (now : Nat) (ok : Bool) (chat_id : Int)
    (s : Session) (a : String) (hs : Inv s) :
    Inv (dispatch store now ok chat_id s (Event.answer a)).session := by
  by_cases hst : s.state = some QuizState.answering_quiz
  · simp only [dispatch, hst, if_true]
    by_cases hc : s.questions.length ≤ s.current_question
    · simp [answer_callback, hc, clearedSession, Inv]
    · have hlt : s.current_question < s.questions.length := not_le.mp hc
      have h := answer_callback_step now ok chat_id s a hlt
      constructor
      · rw [h.2.2, h.1]
        have h1 := hs.1
        have hite : (if (pyLower a ==
            get_correct_answer (s.questions.getD s.current_question emptyDoc)) = true
              then 1 else 0) ≤ 1 := by
          split <;> omega
        omega
      · rw [h.1, h.2.1]
        omega
  · simpa [dispatch, hst] using hs

lemma run_events_inv (store : Store) (now : Nat) (chat_id : Int) :
    ∀ (events : List (String × Bool)) (s : Session), Inv s →
      Inv (run_events store now chat_id s events) := by
  intro events
  induction events with
  | nil => intro s hs; exact hs
  | cons e rest ih =>
    intro s hs
    exact ih _ (dispatch_answer_inv store now e.2 chat_id s e.1 hs)

/-- C3: under the invariant `score ≤ currentIndex ≤ len(questions)`, every
answer event preserves the invariant (so any sequence of answer events
does, step by step); an answer handled in the Answering state with an
active question advances the index by exactly one, leaves the question
list unchanged, and increments the score by exactly one precisely when the
lowercased selected letter equals the resolved correct letter, else by
zero. -/
theorem answer_events_invariant (store : Store) (now : Nat) (chat_id : Int)
    (s : Session) (hs : Inv s) :
    (∀ (a : String) (ok : Bool),
      Inv (dispatch store now ok chat_id s (Event.answer a)).session ∧
      (s.state = some QuizState.answering_quiz →
        s.current_question < s.questions.length →
          (dispatch store now ok chat_id s (Event.answer a)).session.current_question =
            s.current_question + 1 ∧
          (dispatch store now ok chat_id s (Event.answer a)).session.questions =
            s.questions ∧
          (dispatch store now ok chat_id s (Event.answer a)).session.score =
            s.score + (if pyLower a ==
                get_correct_answer (s.questions.getD s.current_question emptyDoc)
              then 1 else 0))) ∧
    (∀ events : List (String × Bool), Inv (run_events store now chat_id s events)) := by
  refine ⟨fun a ok => ⟨dispatch_answer_inv store now ok chat_id s a hs, ?_⟩,
    fun events => run_events_inv store now chat_id events s hs⟩
  intro hst hlt
  have h := answer_callback_step now ok chat_id s a hlt
  simpa [dispatch, hst] using h

/-- Fresh Answering session over two concrete questions, used to witness C3. -/
def startSession : Session :=
  { state := some QuizState.answering_quiz, subject := some "math",
    questions := [mathExample, franceExample], current_question := 0, score := 0 }

theorem answer_events_invariant_witness :
    Inv (run_events oneSubjectStore 0 0 startSession [("B", true), ("A", true)]) :=
  (answer_events_invariant oneSubjectStore 0 0 startSession
      ⟨by decide, by decide⟩).2 [("B", true), ("A", true)]

/-- C4: the moment `currentIndex` reaches `len(questions)` with the result
store available, exactly one Result Record is written — carrying the final
score, the session's question count as `total`, and the timestamp — and
the session transitions to PostQuiz; afterwards answer events are no
longer routed to the answering handler, so no further record is written
for this question sequence, and answering the final question of an
Answering session writes exactly one record. -/
theorem quiz_completion_single_result (now : Nat) (chat_id : Int) (s : Session)
    (hdone : s.current_question = s.questions.length) :
    (send_next_question now true chat_id s).inserted =
      [⟨chat_id, s.subject, pyOr s.topic "_RANDOM_", s.score, s.questions.length, now⟩] ∧
    (send_next_question now true chat_id s).session.state = some QuizState.post_quiz ∧
    (∀ (store : Store) (now2 : Nat) (ok2 : Bool) (a : String),
      (dispatch store now2 ok2 chat_id (send_next_question now true chat_id s).session
          (Event.answer a)).inserted = []) ∧
    (∀ (store : Store) (s0 : Session) (a : String),
      s0.state = some QuizState.answering_quiz →
      s0.current_question + 1 = s0.questions.length →
      (dispatch store now true chat_id s0 (Event.answer a)).inserted.length = 1) := by
  have hle : s.questions.length ≤ s.current_question := le_of_eq hdone.symm
  refine ⟨by simp [send_next_question, hle], by simp [send_next_question, hle], ?_, ?_⟩
  · intro store now2 ok2 a
    have hstate : (send_next_question now true chat_id s).session.state =
        some QuizState.post_quiz := by simp [send_next_question, hle]
    simp [dispatch, hstate]
  · intro store s0 a h1 h2
    have hlt : s0.current_question < s0.questions.length := by omega
    have hne : ¬ s0.questions.length ≤ s0.current_question := not_le.mpr hlt
    have hle2 : s0.questions.length ≤ s0.current_question + 1 := le_of_eq h2.symm
    simp [dispatch, h1, answer_callback, hne, send_next_question, hle2]

theorem quiz_completion_single_result_witness :
    (send_next_question 5 true 9 exhaustedSession).inserted =
      [⟨9, some "math", pyOr none "_RANDOM_", 1, 1, 5⟩] ∧
    (send_next_question 5 true 9 exhaustedSession).session.state =
      some QuizState.post_quiz :=
  ⟨(quiz_completion_single_result 5 9 exhaustedSession rfl).1,
   (quiz_completion_single_result 5 9 exhaustedSession rfl).2.1⟩

lemma serveLoop_mono (n : Nat) :
    ∀ (pool : List Doc) (served : List String) (results : List Doc) (x : String),
      x ∈ served → x ∈ (serveLoop n served results pool).1 := by
  intro pool
  induction pool with
  | nil => intro served results x hx; simpa [serveLoop] using hx
  | cons q rest ih =>
    intro served results x hx
    by_cases hmem : sourceId q ∈ served
    · simpa [serveLoop, hmem] using ih served results x hx
    · by_cases hn : n ≤ results.length + 1
      · simp only [serveLoop, if_neg hmem, if_pos hn]
        exact List.mem_cons_of_mem _ hx
      · simpa [serveLoop, hmem, hn] using
          ih (sourceId q :: served) (results ++ [sanitize_question_doc q]) x
            (List.mem_cons_of_mem _ hx)

lemma serveLoop_results (n : Nat) :
    ∀ (pool : List Doc) (served : List String) (results : List Doc) (d : Doc),
      d ∈ (serveLoop n served results pool).2 →
      d ∈ results ∨
        (sourceId d ∈ (serveLoop n served results pool).1 ∧ sourceId d ∉ served) := by
  intro pool
  induction pool with
  | nil =>
    intro served results d hd
    simp only [serveLoop] at hd ⊢
    exact Or.inl hd
  | cons q rest ih =>
    intro served results d hd
    by_cases hmem : sourceId q ∈ served
    · simp only [serveLoop, if_pos hmem] at hd ⊢
      exact ih served results d hd
    · by_cases hn : n ≤ results.length + 1
      · simp only [serveLoop, if_neg hmem, if_pos hn] at hd ⊢
        rcases List.mem_append.mp hd with h1 | h1
        · exact Or.inl h1
        · have hq : d = sanitize_question_doc q := by simpa using h1
          refine Or.inr ⟨?_, ?_⟩
          · rw [hq]
            exact List.mem_cons_self _ _
          · rw [hq]
            exact hmem
      · simp only [serveLoop, if_neg hmem, if_neg hn] at hd ⊢
        rcases ih (sourceId q :: served) (results ++ [sanitize_question_doc q]) d hd
          with h1 | h1
        · rcases List.mem_append.mp h1 with h2 | h2
          · exact Or.inl h2
          · have hq : d = sanitize_question_doc q := by simpa using h2
            refine Or.inr ⟨?_, ?_⟩
            · rw [hq]
              exact serveLoop_mono n rest (sourceId q :: served)
                (results ++ [sanitize_question_doc q]) _ (List.mem_cons_self _ _)
            · rw [hq]
              exact hmem
        · exact Or.inr ⟨h1.1, fun hx => h1.2 (List.mem_cons_of_mem _ hx)⟩

lemma fetch_not_ok (store : Store) (shuffle : List Doc → List Doc) (dbname : String)
    (colname : Option String) (user_id : Int) (n : Nat) :
    fetch_nonrepeating_questions store shuffle false dbname colname user_id n =
      ([], store) := by
  simp [fetch_nonrepeating_questions]

lemma fetch_empty_pool (store : Store) (shuffle : List Doc → List Doc) (dbname : String)
    (colname : Option String) (user_id : Int) (n : Nat)
    (h : build_pool store dbname colname
      (served_of store (prog_key_of user_id dbname colname)) = []) :
    fetch_nonrepeating_questions store shuffle true dbname colname user_id n =
      ([], store) := by
  simp [fetch_nonrepeating_questions, h]

lemma fetch_main (store : Store) (shuffle : List Doc → List Doc) (dbname : String)
    (colname : Option String) (user_id : Int) (n : Nat)
    (h : build_pool store dbname colname
      (served_of store (prog_key_of user_id dbname colname)) ≠ []) :
    fetch_nonrepeating_questions store shuffle true dbname colname user_id n =
      ((serveLoop n (served_of store (prog_key_of user_id dbname colname)) []
          (shuffle (build_pool store dbname colname
            (served_of store (prog_key_of user_id dbname colname))))).2.take n,
       { store with progress := fun k2 =>
                      if k2 = prog_key_of user_id dbname colname then
                        some (serveLoop n
                          (served_of store (prog_key_of user_id dbname colname)) []
                          (shuffle (build_pool store dbname colname
                            (served_of store (prog_key_of user_id dbname colname))))).1
                      else store.progress k2 }) := by
  simp [fetch_nonrepeating_questions, h]

lemma served_of_update (store : Store) (k : ProgKey) (l : List String) :
    served_of { store with progress := fun k2 =>
                  if k2 = k then some l else store.progress k2 } k = l := by
  simp [served_of]

lemma fetch_progress_superset (store : Store) (shuffle : List Doc → List Doc)
    (storeOk : Bool) (dbname : String) (colname : Option String) (user_id : Int)
    (n : Nat) :
    ∀ x ∈ served_of store (prog_key_of user_id dbname colname),
      x ∈ served_of
        (fetch_nonrepeating_questions store shuffle storeOk dbname colname user_id n).2
        (prog_key_of user_id dbname colname) := by
  intro x hx
  cases storeOk with
  | false =>
    rw [fetch_not_ok]
    exact hx
  | true =>
    by_cases hpool : build_pool store dbname colname
        (served_of store (prog_key_of user_id dbname colname)) = []
    · rw [fetch_empty_pool store shuffle dbname colname user_id n hpool]
      exact hx
    · rw [fetch_main store shuffle dbname colname user_id n hpool, served_of_update]
      exact serveLoop_mono n _ _ _ x hx

lemma fetch_results_spec (store : Store) (shuffle : List Doc → List Doc)
    (storeOk : Bool) (dbname : String) (colname : Option String) (user_id : Int)
    (n : Nat) :
    ∀ d ∈ (fetch_nonrepeating_questions store shuffle storeOk dbname colname user_id n).1,
      sourceId d ∈ served_of
          (fetch_nonrepeating_questions store shuffle storeOk dbname colname user_id n).2
          (prog_key_of user_id dbname colname) ∧
      sourceId d ∉ served_of store (prog_key_of user_id dbname colname) := by
  intro d hd
  cases storeOk with
  | false =>
    rw [fetch_not_ok] at hd
    simp at hd
  | true =>
    by_cases hpool : build_pool store dbname colname
        (served_of store (prog_key_of user_id dbname colname)) = []
    · rw [fetch_empty_pool store shuffle dbname colname user_id n hpool] at hd
      simp at hd
    · rw [fetch_main store shuffle dbname colname user_id n hpool] at hd ⊢
      rw [served_of_update]
      have hd2 := List.take_subset n _ hd
      rcases serveLoop_results n _ _ _ d hd2 with h1 | h1
      · simp at h1
      · exact h1

/-- C1: the Progress Record for a scope only grows across a sampler call;
every document the sampler returns has its `sourceId` recorded in the
persisted served set and was not in the previously served set; composing
two calls on the same scope (the second reloading the Progress Record the
first one persisted, as after a process restart), no `sourceId` returned
by the first call can be returned again by the second. -/
theorem fetch_dedup_monotone (store : Store) (shuffle : List Doc → List Doc)
    (storeOk : Bool) (dbname : String) (colname : Option String) (user_id : Int)
    (n : Nat) :
    (∀ x ∈ served_of store (prog_key_of user_id dbname colname),
      x ∈ served_of
        (fetch_nonrepeating_questions store shuffle storeOk dbname colname user_id n).2
        (prog_key_of user_id dbname colname)) ∧
    (∀ d ∈ (fetch_nonrepeating_questions store shuffle storeOk dbname colname user_id n).1,
      sourceId d ∈ served_of
          (fetch_nonrepeating_questions store shuffle storeOk dbname colname user_id n).2
          (prog_key_of user_id dbname colname) ∧
      sourceId d ∉ served_of store (prog_key_of user_id dbname colname)) ∧
    (∀ (shuffle2 : List Doc → List Doc) (storeOk2 : Bool) (n2 : Nat),
      ∀ d2 ∈ (fetch_nonrepeating_questions
            (fetch_nonrepeating_questions store shuffle storeOk dbname colname user_id n).2
            shuffle2 storeOk2 dbname colname user_id n2).1,
        ∀ d1 ∈ (fetch_nonrepeating_questions store shuffle storeOk dbname colname
            user_id n).1,
          sourceId d2 ≠ sourceId d1) := by
  refine ⟨fetch_progress_superset store shuffle storeOk dbname colname user_id n,
    fetch_results_spec store shuffle storeOk dbname colname user_id n, ?_⟩
  intro shuffle2 storeOk2 n2 d2 hd2 d1 hd1 heq
  have h2 := (fetch_results_spec _ shuffle2 storeOk2 dbname colname user_id n2 d2 hd2).2
  have h1 := (fetch_results_spec store shuffle storeOk dbname colname user_id n d1 hd1).1
  rw [heq] at h2
  exact h2 h1

/-- Document used by the C1 witness store. -/
def dedupDoc : Doc := { question_id := some "y", _id := "i1" }

/-- Store whose scope `(1, "s", "t")` already has `"x"` served, used to
witness C1. -/
def dedupStore : Store :=
  { database_names := ["s"],
    collections := fun _ => ["t"],
    dbs := fun db cl => if db = "s" && cl = "t" then [dedupDoc] else [],
    progress := fun k => if k = prog_key_of 1 "s" (some "t") then some ["x"] else none }

theorem fetch_dedup_monotone_witness :
    "x" ∈ served_of
      (fetch_nonrepeating_questions dedupStore id true "s" (some "t") 1 3).2
      (prog_key_of 1 "s" (some "t")) :=
  (fetch_dedup_monotone dedupStore id true "s" (some "t") 1 3).1 "x" (by decide)

lemma serveLoop_length_lower (n : Nat) :
    ∀ (pool : List Doc) (served : List String) (results : List Doc),
      min n (results.length +
        (((pool.map sourceId).toFinset) \ served.toFinset).card) ≤
        (serveLoop n served results pool).2.length := by
  intro pool
  induction pool with
  | nil =>
    intro served results
    simp only [serveLoop, List.map_nil, List.toFinset_nil, Finset.empty_sdiff,
      Finset.card_empty, Nat.add_zero]
    omega
  | cons q rest ih =>
    intro served results
    by_cases hmem : sourceId q ∈ served
    · have hins : (((q :: rest).map sourceId).toFinset) \ served.toFinset =
          ((rest.map sourceId).toFinset) \ served.toFinset := by
        rw [List.map_cons, List.toFinset_cons]
        exact Finset.insert_sdiff_of_mem _ (List.mem_toFinset.mpr hmem)
      rw [hins]
      simp only [serveLoop, if_pos hmem]
      exact ih served results
    · by_cases hn : n ≤ results.length + 1
      · simp only [serveLoop, if_neg hmem, if_pos hn, List.length_append,
          List.length_singleton]
        omega
      · simp only [serveLoop, if_neg hmem, if_neg hn]
        have hsub : ((((q :: rest).map sourceId).toFinset) \ served.toFinset).card ≤
            (((rest.map sourceId).toFinset) \ (sourceId q :: served).toFinset).card + 1 := by
          have hss : (((q :: rest).map sourceId).toFinset) \ served.toFinset ⊆
              insert (sourceId q)
                (((rest.map sourceId).toFinset) \ (sourceId q :: served).toFinset) := by
            intro x hx
            rw [List.map_cons, List.toFinset_cons] at hx
            rcases Finset.mem_sdiff.mp hx with ⟨hx1, hx2⟩
            rcases Finset.mem_insert.mp hx1 with hx3 | hx3
            · exact Finset.mem_insert.mpr (Or.inl hx3)
            · by_cases hxq : x = sourceId q
              · exact Finset.mem_insert.mpr (Or.inl hxq)
              · refine Finset.mem_insert.mpr (Or.inr (Finset.mem_sdiff.mpr ⟨hx3, ?_⟩))
                rw [List.toFinset_cons]
                intro hc
                rcases Finset.mem_insert.mp hc with hc1 | hc1
                · exact hxq hc1
                · exact hx2 hc1
          calc ((((q :: rest).map sourceId).toFinset) \ served.toFinset).card
              ≤ (insert (sourceId q)
                  (((rest.map sourceId).toFinset) \
                    (sourceId q :: served).toFinset)).card := Finset.card_le_card hss
            _ ≤ _ + 1 := Finset.card_insert_le _ _
        have hrec := ih (sourceId q :: served) (results ++ [sanitize_question_doc q])
        rw [List.length_append, List.length_singleton] at hrec
        omega

/-- C2 counterexample: two collections each holding one document with the
same `question_id` give an eligible pool of two documents, but with `n = 2`
the sampler returns a single question — the walk skips the second document
because its `sourceId` was just served — refuting "at least `n` documents
in the eligible pool implies exactly `n` returned". -/
def dupA : Doc := { question_id := some "x", _id := "i1" }

/-- Second document sharing `dupA`'s `question_id` under another topic. -/
def dupB : Doc := { question_id := some "x", _id := "i2" }

/-- Store for the C2 counterexample and witness: subject `"s"` with topics
`"t1"`, `"t2"` holding `dupA` and `dupB`. -/
def dupStore : Store :=
  { database_names := ["s"],
    collections := fun db => if db = "s" then ["t1", "t2"] else [],
    dbs := fun db cl =>
      if db = "s" && cl = "t1" then [dupA]
      else if db = "s" && cl = "t2" then [dupB] else [],
    progress := fun _ => none }

theorem fetch_bounded_yield_counterexample :
    (build_pool dupStore "s" none
        (served_of dupStore (prog_key_of 7 "s" none))).length = 2 ∧
    (fetch_nonrepeating_questions dupStore id true "s" none 7 2).1.length = 1 := by
  decide

/-- C2 (amended): the sampler returns at most `n` questions; an empty
eligible pool yields the empty sequence; and whenever the store call
succeeds and the eligible pool holds at least `n` distinct `sourceId`
values, exactly `n` are returned.  (At least `n` pool documents alone is
not enough: duplicate `sourceId`s across the pool are filtered during the
walk.) -/
theorem fetch_bounded_yield (store : Store) (shuffle : List Doc → List Doc)
    (storeOk : Bool) (dbname : String) (colname : Option String) (user_id : Int)
    (n : Nat) (hperm : ∀ l : List Doc, List.Perm (shuffle l) l) :
    (fetch_nonrepeating_questions store shuffle storeOk dbname colname user_id n).1.length
      ≤ n ∧
    (build_pool store dbname colname
        (served_of store (prog_key_of user_id dbname colname)) = [] →
      (fetch_nonrepeating_questions store shuffle storeOk dbname colname user_id n).1
        = []) ∧
    (storeOk = true →
      n ≤ ((((build_pool store dbname colname
              (served_of store (prog_key_of user_id dbname colname))).map
            sourceId).toFinset) \
          (served_of store (prog_key_of user_id dbname colname)).toFinset).card →
      (fetch_nonrepeating_questions store shuffle storeOk dbname colname user_id n).1.length
        = n) := by
  refine ⟨?_, ?_, ?_⟩
  · cases storeOk with
    | false => rw [fetch_not_ok]; simp
    | true =>
      by_cases hpool : build_pool store dbname colname
          (served_of store (prog_key_of user_id dbname colname)) = []
      · rw [fetch_empty_pool store shuffle dbname colname user_id n hpool]
        simp
      · rw [fetch_main store shuffle dbname colname user_id n hpool]
        simp [List.length_take]
  · intro hpool
    cases storeOk with
    | false => rw [fetch_not_ok]
    | true => rw [fetch_empty_pool store shuffle dbname colname user_id n hpool]
  · intro hok hcard
    subst hok
    by_cases hpool : build_pool store dbname colname
        (served_of store (prog_key_of user_id dbname colname)) = []
    · rw [hpool] at hcard
      simp only [List.map_nil, List.toFinset_nil, Finset.empty_sdiff,
        Finset.card_empty, Nat.le_zero] at hcard
      rw [fetch_empty_pool store shuffle dbname colname user_id n hpool]
      simp [hcard]
    · rw [fetch_main store shuffle dbname colname user_id n hpool]
      have hlow := serveLoop_length_lower n
        (shuffle (build_pool store dbname colname
          (served_of store (prog_key_of user_id dbname colname))))
        (served_of store (prog_key_of user_id dbname colname)) []
      have hfs : ((shuffle (build_pool store dbname colname
            (served_of store (prog_key_of user_id dbname colname)))).map
          sourceId).toFinset =
          ((build_pool store dbname colname
            (served_of store (prog_key_of user_id dbname colname))).map
          sourceId).toFinset :=
        List.toFinset_eq_of_perm _ _ (List.Perm.map sourceId (hperm _))
      rw [hfs] at hlow
      simp only [List.length_nil, Nat.zero_add] at hlow
      rw [List.length_take]
      omega

theorem fetch_bounded_yield_witness :
    (fetch_nonrepeating_questions dupStore id true "s" none 7 1).1.length = 1 :=
  (fetch_bounded_yield dupStore id true "s" none 7 1
    (fun l => List.Perm.refl l)).2.2 rfl (by decide)

end QuizBot
